import Mathlib

/-!
Verification of the upload → convert → catalog pipeline of the STP viewer
web application (`src/app.py`).  Python functions are shallowly embedded as
Lean functions; the filesystem is explicit state; the external geometry
kernel and the HTTP framework are modelled by their contracts.
-/

namespace StpViewer

/-! ### String helpers embedding the Python string operations used by `app.py` -/

/-- Python `str.lower()` restricted to its ASCII behaviour (all filenames in
the claims are ASCII). -/
def pyLower (s : String) : String := String.mk (s.toList.map Char.toLower)

/-- Splitting a character list at its last `'.'`: returns `some (before, after)`
when a dot occurs, `none` otherwise.  This is the list-level core of Python's
`filename.rsplit('.', 1)` under the `'.' in filename` guard. -/
def splitLastDot : List Char → Option (List Char × List Char)
  | [] => none
  | c :: rest =>
    match splitLastDot rest with
    | some (b, a) => some (c :: b, a)
    | none => if c = '.' then some ([], rest) else none

/-- Python `filename.rsplit('.', 1)[0]`: the part before the last dot, or the
whole string when there is no dot. -/
def pyStem (s : String) : String :=
  match splitLastDot s.toList with
  | some (b, _) => String.mk b
  | none => s

/-- Python `filename.rsplit('.', 1)[1]` guarded by `'.' in filename`: the part
after the last dot, when a dot exists. -/
def pyExt (s : String) : Option String :=
  match splitLastDot s.toList with
  | some (_, a) => some (String.mk a)
  | none => none

/-- `app.config['ALLOWED_EXTENSIONS'] = {'stp', 'step'}` (src/app.py line 35). -/
def ALLOWED_EXTENSIONS : List String := ["stp", "step"]

/-- `allowed_file` (src/app.py lines 41-42):
`'.' in filename and filename.rsplit('.', 1)[1].lower() in app.config['ALLOWED_EXTENSIONS']`. -/
def allowed_file (filename : String) : Bool :=
  match pyExt filename with
  | some ext => ALLOWED_EXTENSIONS.contains (pyLower ext)
  | none => false

/-! ### The sanitizer

`werkzeug.utils.secure_filename` is an external collaborator whose code is not
part of this repository.  Modelled from the spec: "Sanitizes the filename
(strip path components and unsafe characters)", refined to the documented
behaviour of the actual collaborator on ASCII input: POSIX path separators
become spaces, whitespace runs are collapsed to single underscores, every
character outside `[A-Za-z0-9_.-]` is removed, and leading/trailing `'.'` and
`'_'` are stripped.  (The Unicode NFKD/ASCII-coercion step is the identity on
ASCII input and is modelled by simply discarding non-ASCII characters.) -/

/-- The whitespace characters recognised by Python `str.split()`. -/
def pyWhitespace (c : Char) : Bool :=
  c = ' ' || c = '\t' || c = '\n' || c = '\x0d' || c = '\x0b' || c = '\x0c'

/-- Python `str.split()` (split on whitespace runs, dropping empty pieces),
on character lists; the accumulator holds the current word reversed. -/
def splitWSAux : List Char → List Char → List (List Char)
  | [], acc => if acc.isEmpty then [] else [acc.reverse]
  | c :: rest, acc =>
    if pyWhitespace c then
      if acc.isEmpty then splitWSAux rest [] else acc.reverse :: splitWSAux rest []
    else splitWSAux rest (c :: acc)

def splitWS (l : List Char) : List (List Char) := splitWSAux l []

/-- `"_".join(pieces)`. -/
def joinUnderscore : List (List Char) → List Char
  | [] => []
  | [w] => w
  | w :: ws => w ++ '_' :: joinUnderscore ws

/-- A character kept by the sanitizer's filter `[A-Za-z0-9_.-]`. -/
def safeChar (c : Char) : Bool :=
  c.isAlphanum || c = '_' || c = '.' || c = '-'

/-- A character stripped from both ends by `.strip("._")`. -/
def stripChar (c : Char) : Bool := c = '.' || c = '_'

/-- Modelled from the spec: the filename sanitizer (werkzeug
`secure_filename`, not part of this repository); see the section comment. -/
def secure_filename (s : String) : String :=
  let l1 := s.toList.filter (fun c => c.toNat < 128)
  let l2 := l1.map (fun c => if c = '/' then ' ' else c)
  let l3 := joinUnderscore (splitWS l2)
  let l4 := l3.filter safeChar
  let l5 := ((l4.dropWhile stripChar).reverse.dropWhile stripChar).reverse
  String.mk l5

/-! ### Spec-side formulations of "stem" and "extension"

Independent renderings of the concepts used by the specification, phrased
from the end of the string (so that agreement with the code's
`rsplit`-based computations is a theorem, not a definition). -/

/-- The extension of a filename as the spec means it: the part after the last
dot (read off from the reversed character list), absent when no dot occurs. -/
def specExt (s : String) : Option String :=
  if '.' ∈ s.toList then
    some (String.mk ((s.toList.reverse.takeWhile (fun c => c ≠ '.')).reverse))
  else none

/-- The stem of a filename as the spec means it: the filename with its
extension and dot removed, or the whole filename when it has no dot. -/
def specStem (s : String) : String :=
  if '.' ∈ s.toList then
    String.mk (((s.toList.reverse.dropWhile (fun c => c ≠ '.')).drop 1).reverse)
  else s

/-- The spec-side validity predicate: the extension (case-insensitively) is
in the allow-set.  Filenames without a dot have no extension and fail it. -/
def specHasAllowedExt (s : String) : Bool :=
  match specExt s with
  | some ext => ALLOWED_EXTENSIONS.contains (pyLower ext)
  | none => false

/-! ### The geometry kernel and `convert_stp_to_stl`

The OCC/OCP geometry kernel is the external collaborator wrapped by
`convert_stp_to_stl` (src/app.py lines 44-81).  Its observable interactions
in that function are: the read status returned by `ReadFile`, whether the
transferred composite shape `IsNull()`, and whether `StlAPI_Writer.Write`
reports success.  These three observations form the kernel model; the writer
is modelled as creating the output file exactly when it reports success. -/

/-- `IFSelect_RetDone`, the kernel's success read status (value 1 in the
`IFSelect_ReturnStatus` enumeration; only its distinguished role matters). -/
def IFSelect_RetDone : Nat := 1

/-- The kernel's observable behaviour on one source file. -/
structure KernelModel where
  readStatus : Nat
  shapeIsNull : Bool
  writeSuccess : Bool
deriving Repr, DecidableEq

/-- The exceptions `convert_stp_to_stl` can raise, with the exact messages
`str(e)` produces for them. -/
inductive ConvError where
  | kernelUnavailable
  | readFailure (status : Nat)
  | emptyShape
  | writeFailure
deriving Repr, DecidableEq

/-- `str(e)` for each exception raised by `convert_stp_to_stl`. -/
def convErrorMsg : ConvError → String
  | .kernelUnavailable =>
      "OCP (cadquery-ocp) or pythonocc-core is required for STP file conversion"
  | .readFailure s => "Error reading STEP file. Status: " ++ toString s
  | .emptyShape => "No shape found in STEP file"
  | .writeFailure => "Failed to write STL file"

/-- `convert_stp_to_stl` (src/app.py lines 44-81), with the static directory's
file-name set threaded explicitly: raises (returns `.error`) on unavailable
kernel, non-success read status, null shape, or failed write, and otherwise
returns `True` with the output file created at `stlName`. -/
def convert_stp_to_stl (hasOCC : Bool) (k : KernelModel) (stlName : String)
    (staticFiles : List String) : Except ConvError Bool × List String :=
  if hasOCC = false then (.error .kernelUnavailable, staticFiles)
  else if k.readStatus ≠ IFSelect_RetDone then (.error (.readFailure k.readStatus), staticFiles)
  else if k.shapeIsNull then (.error .emptyShape, staticFiles)
  else if k.writeSuccess then (.ok true, staticFiles.insert stlName)
  else (.error .writeFailure, staticFiles)

/-! ### The filesystem model -/

/-- One file in the uploads directory as the catalog scan observes it:
its name, `os.path.getmtime` value and `os.path.getsize` value. -/
structure FileInfo where
  name : String
  mtime : Int
  size : Nat
deriving Repr, DecidableEq

/-- The filesystem state the application reads and writes: whether the uploads
directory exists, its entries in `os.listdir` order, and the names present in
the static (results) directory. -/
structure FS where
  uploadsExists : Bool
  uploads : List FileInfo
  staticFiles : List String
deriving Repr, DecidableEq

/-- `file.save(stp_path)`: overwrite the file with the same sanitized name if
present (keeping its position in the directory listing), else create it. -/
def saveFile (l : List FileInfo) (name : String) (mt : Int) (sz : Nat) : List FileInfo :=
  if l.any (fun f => f.name = name) then
    l.map (fun f => if f.name = name then ⟨name, mt, sz⟩ else f)
  else l ++ [⟨name, mt, sz⟩]

/-! ### The upload handler -/

/-- An inbound multipart request: whether a `file` part is present, and the
client-supplied filename of that part. -/
structure UploadRequest where
  hasFilePart : Bool
  filename : String
deriving Repr, DecidableEq

/-- The JSON body of an upload response, one optional field per key that
`upload_file` can emit, plus the HTTP status code. -/
structure UploadResponse where
  success : Bool := false
  error : Option String := none
  stl_file : Option String := none
  stp_file : Option String := none
  filename : Option String := none
  message : Option String := none
  needs_conversion : Option Bool := none
  status : Nat
deriving Repr, DecidableEq

/-- `upload_file` (src/app.py lines 87-128).  `mt`/`sz` are the modification
time and size the saved file gets on disk.  Returns the JSON response and the
filesystem after the request. -/
def upload_file (hasOCC : Bool) (k : KernelModel) (req : UploadRequest)
    (fs : FS) (mt : Int) (sz : Nat) : UploadResponse × FS :=
  if req.hasFilePart = false then
    ({ error := some "No file provided", status := 400 }, fs)
  else if req.filename = "" then
    ({ error := some "No file selected", status := 400 }, fs)
  else if allowed_file req.filename = false then
    ({ error := some "Invalid file type. Please upload .stp or .step files",
       status := 400 }, fs)
  else
    let filename := secure_filename req.filename
    let fs1 : FS := { fs with uploads := saveFile fs.uploads filename mt sz }
    let stl_filename := pyStem filename ++ ".stl"
    if hasOCC then
      match convert_stp_to_stl true k stl_filename fs1.staticFiles with
      | (.ok _, st) =>
        ({ success := true, stl_file := some ("/static/" ++ stl_filename),
           filename := some filename,
           message := some "File uploaded and converted successfully",
           status := 200 }, { fs1 with staticFiles := st })
      | (.error e, st) =>
        ({ error := some ("Error processing file: " ++ convErrorMsg e),
           status := 500 }, { fs1 with staticFiles := st })
    else
      ({ success := true, stp_file := some ("/uploads/" ++ filename),
         message := some ("File uploaded. Note: pythonocc-core not installed. " ++
           "Install it for STP conversion."),
         needs_conversion := some true, status := 200 }, fs1)

/-! ### The file-serving handlers

`flask.send_file` is an external collaborator: on a missing path it raises
`FileNotFoundError` when opening the file, and the framework boundary turns
the uncaught exception into an HTTP 500 response (it is `send_from_directory`,
not used here, that maps a missing file to 404). -/

/-- The outcome of a file-serving route. -/
inductive SendResult where
  | stream (path : String)
  | exceptionStatus (status : Nat)
deriving Repr, DecidableEq

/-- `flask.send_file` on `dir/name`, given the names present in `dir`. -/
def send_file (existing : List String) (dir name : String) : SendResult :=
  if existing.contains name then .stream (dir ++ "/" ++ name)
  else .exceptionStatus 500

/-- `uploaded_file` (src/app.py lines 130-132):
`send_file(os.path.join(app.config['UPLOAD_FOLDER'], filename))`. -/
def uploaded_file (fs : FS) (filename : String) : SendResult :=
  send_file (fs.uploads.map (fun f => f.name)) "uploads" filename

/-- `static_file` (src/app.py lines 134-136):
`send_file(os.path.join('static', filename))`. -/
def static_file (fs : FS) (filename : String) : SendResult :=
  send_file fs.staticFiles "static" filename

/-! ### The catalog reader `get_recent_uploads`

The scan touches the filesystem at `os.listdir`, `os.path.getmtime` and
`os.path.getsize`; any of these can raise an `OSError`, which the handler's
`try`/`except` converts into `{'error': str(e), 'files': []}` with status 500.
A `ScanFault` injects at most one such failure into a scan
(`os.path.exists` returns a Bool and does not raise). -/

/-- At most one filesystem access failure during a catalog scan: none, a
failing `os.listdir`, or a failing `getmtime`/`getsize` on a named file. -/
inductive ScanFault where
  | clean
  | listdirFault (msg : String)
  | mtimeFault (name msg : String)
  | sizeFault (name msg : String)
deriving Repr, DecidableEq

/-- `os.listdir(uploads_dir)` under fault injection. -/
def pyListdir (fault : ScanFault) (fs : FS) : Except String (List FileInfo) :=
  match fault with
  | .listdirFault msg => .error msg
  | _ => .ok fs.uploads

/-- `os.path.getmtime(file_path)` under fault injection. -/
def pyGetmtime (fault : ScanFault) (f : FileInfo) : Except String Int :=
  match fault with
  | .mtimeFault n msg => if n = f.name then .error msg else .ok f.mtime
  | _ => .ok f.mtime

/-- `os.path.getsize(file_path)` under fault injection. -/
def pyGetsize (fault : ScanFault) (f : FileInfo) : Except String Nat :=
  match fault with
  | .sizeFault n msg => if n = f.name then .error msg else .ok f.size
  | _ => .ok f.size

/-- One element of the `files` array built by `get_recent_uploads`.  The
`date` field holds the raw modification time; the final
`datetime.fromtimestamp(...).isoformat()` rendering of it into a string is
pure formatting and is not modelled. -/
structure CatalogEntry where
  filename : String
  stl_file : Option String
  date : Int
  size : Nat
deriving Repr, DecidableEq

/-- The body of the `for filename in os.listdir(...)` loop (src/app.py lines
150-166): keep entries passing `allowed_file`, read their mtime, attach
`/static/<stem>.stl` when that file exists, read their size. -/
def buildEntries (fault : ScanFault) (staticFiles : List String) :
    List FileInfo → Except String (List CatalogEntry)
  | [] => .ok []
  | f :: rest =>
    if allowed_file f.name then
      match pyGetmtime fault f with
      | .error e => .error e
      | .ok mt =>
        let stlName := pyStem f.name ++ ".stl"
        let stl := if staticFiles.contains stlName
          then some ("/static/" ++ stlName) else none
        match pyGetsize fault f with
        | .error e => .error e
        | .ok sz =>
          match buildEntries fault staticFiles rest with
          | .error e => .error e
          | .ok tail =>
            .ok ({ filename := f.name, stl_file := stl, date := mt, size := sz } :: tail)
    else buildEntries fault staticFiles rest

/-- The order used by `files.sort(key=lambda x: x['date'], reverse=True)`:
Python's sort is stable, and with `reverse=True` it stably orders by
descending key; a stable insertion sort under this total preorder computes
exactly that result. -/
def dateGe (a b : CatalogEntry) : Prop := b.date ≤ a.date

instance : DecidableRel dateGe :=
  fun a b => inferInstanceAs (Decidable (b.date ≤ a.date))

instance : IsTotal CatalogEntry dateGe := ⟨fun a b => le_total b.date a.date⟩

instance : IsTrans CatalogEntry dateGe := ⟨fun _ _ _ h1 h2 => h2.trans h1⟩

/-- The whole `try` block of `get_recent_uploads`: list the directory, build
the entries, sort newest-first and truncate to 4. -/
def scanRecent (fs : FS) (fault : ScanFault) : Except String (List CatalogEntry) :=
  match pyListdir fault fs with
  | .error e => .error e
  | .ok listing =>
    match buildEntries fault fs.staticFiles listing with
    | .error e => .error e
    | .ok entries => .ok ((entries.insertionSort dateGe).take 4)

/-- The JSON body of the recent-uploads response plus its HTTP status. -/
structure RecentResponse where
  error : Option String
  files : List CatalogEntry
  status : Nat
deriving Repr, DecidableEq

/-- `get_recent_uploads` (src/app.py lines 138-179): empty list when the
uploads directory does not exist; otherwise the scan, with any raised error
caught at the boundary and turned into `{'error': str(e), 'files': []}`, 500. -/
def get_recent_uploads (fs : FS) (fault : ScanFault) : RecentResponse :=
  if fs.uploadsExists = false then ⟨none, [], 200⟩
  else
    match scanRecent fs fault with
    | .ok files => ⟨none, files, 200⟩
    | .error msg => ⟨some msg, [], 500⟩

/-- The catalog entry the loop body builds for one allowed upload. -/
def mkEntry (st : List String) (f : FileInfo) : CatalogEntry :=
  { filename := f.name
    stl_file := if st.contains (pyStem f.name ++ ".stl")
      then some ("/static/" ++ (pyStem f.name ++ ".stl")) else none
    date := f.mtime
    size := f.size }

end StpViewer


namespace StpViewer

/-! ### Agreement of the code's rsplit-based computations with the spec's
stem/extension concepts -/

theorem splitLastDot_none (l : List Char) : splitLastDot l = none ↔ '.' ∉ l := by
  induction l with
  | nil => simp [splitLastDot]
  | cons c rest ih =>
    cases hr : splitLastDot rest with
    | some p =>
      have hdot : '.' ∈ rest := by
        by_contra hn
        rw [ih.mpr hn] at hr
        exact Option.noConfusion hr
      simp [splitLastDot, hr, hdot]
    | none =>
      have h1 : '.' ∉ rest := ih.mp hr
      by_cases hc : c = '.'
      · subst hc
        simp [splitLastDot, hr]
      · have hc' : ¬('.' = c) := fun h => hc h.symm
        simp [splitLastDot, hr, hc, hc', h1]

theorem splitLastDot_some (l b a : List Char) (h : splitLastDot l = some (b, a)) :
    l = b ++ '.' :: a ∧ '.' ∉ a := by
  induction l generalizing b a with
  | nil => simp [splitLastDot] at h
  | cons c rest ih =>
    simp only [splitLastDot] at h
    cases hr : splitLastDot rest with
    | some p =>
      obtain ⟨b', a'⟩ := p
      rw [hr] at h
      simp only [Option.some.injEq, Prod.mk.injEq] at h
      obtain ⟨hb, ha⟩ := h
      obtain ⟨he, hna⟩ := ih b' a' hr
      subst hb ha
      exact ⟨by rw [he]; rfl, hna⟩
    | none =>
      rw [hr] at h
      by_cases hc : c = '.'
      · rw [if_pos hc] at h
        simp only [Option.some.injEq, Prod.mk.injEq] at h
        obtain ⟨hb, ha⟩ := h
        subst hb ha hc
        exact ⟨rfl, (splitLastDot_none _).mp hr⟩
      · rw [if_neg hc] at h
        exact Option.noConfusion h

theorem takeWhile_append_stop {α : Type} (p : α → Bool) (xs : List α) (y : α)
    (ys : List α) (hxs : ∀ x ∈ xs, p x = true) (hy : p y = false) :
    (xs ++ y :: ys).takeWhile p = xs := by
  induction xs with
  | nil => simp [List.takeWhile, hy]
  | cons x xs ih =>
    have hx := hxs x (List.mem_cons_self x xs)
    simp only [List.cons_append, List.takeWhile_cons, hx, if_true]
    rw [ih (fun z hz => hxs z (List.mem_cons_of_mem x hz))]

theorem dropWhile_append_stop {α : Type} (p : α → Bool) (xs : List α) (y : α)
    (ys : List α) (hxs : ∀ x ∈ xs, p x = true) (hy : p y = false) :
    (xs ++ y :: ys).dropWhile p = y :: ys := by
  induction xs with
  | nil => simp [List.dropWhile, hy]
  | cons x xs ih =>
    have hx := hxs x (List.mem_cons_self x xs)
    simp only [List.cons_append, List.dropWhile_cons, hx, if_true]
    exact ih (fun z hz => hxs z (List.mem_cons_of_mem x hz))

/-- The code's `rsplit('.', 1)[1]` computes exactly the spec's notion of
extension. -/
theorem pyExt_eq_specExt (s : String) : pyExt s = specExt s := by
  unfold pyExt specExt
  cases h : splitLastDot s.toList with
  | none =>
    have hd : '.' ∉ s.toList := (splitLastDot_none _).mp h
    simp only [String.toList] at hd
    simp [hd]
  | some p =>
    obtain ⟨b, a⟩ := p
    obtain ⟨he, hna⟩ := splitLastDot_some _ _ _ h
    have hdot : '.' ∈ s.toList := by rw [he]; simp
    rw [if_pos hdot, he]
    have hrev : (b ++ '.' :: a).reverse = a.reverse ++ '.' :: b.reverse := by
      simp
    rw [hrev, takeWhile_append_stop _ _ _ _ ?hall (by simp)]
    · simp
    case hall =>
      intro x hx
      simp only [decide_eq_true_eq]
      intro hxe
      exact hna (by subst hxe; exact List.mem_reverse.mp hx)

/-- The code's `rsplit('.', 1)[0]` computes exactly the spec's notion of
stem. -/
theorem pyStem_eq_specStem (s : String) : pyStem s = specStem s := by
  unfold pyStem specStem
  cases h : splitLastDot s.toList with
  | none =>
    have hd : '.' ∉ s.toList := (splitLastDot_none _).mp h
    simp only [String.toList] at hd
    simp [hd]
  | some p =>
    obtain ⟨b, a⟩ := p
    obtain ⟨he, hna⟩ := splitLastDot_some _ _ _ h
    have hdot : '.' ∈ s.toList := by rw [he]; simp
    rw [if_pos hdot, he]
    have hrev : (b ++ '.' :: a).reverse = a.reverse ++ '.' :: b.reverse := by
      simp
    rw [hrev, dropWhile_append_stop _ _ _ _ ?hall (by simp)]
    · simp
    case hall =>
      intro x hx
      simp only [decide_eq_true_eq]
      intro hxe
      exact hna (by subst hxe; exact List.mem_reverse.mp hx)

/-- `allowed_file` accepts exactly the filenames whose spec-side extension is
in the allow-set. -/
theorem allowed_file_eq_spec (s : String) : allowed_file s = specHasAllowedExt s := by
  unfold allowed_file specHasAllowedExt
  rw [pyExt_eq_specExt]

end StpViewer

namespace StpViewer

/-! ### Catalog-scan lemmas -/

theorem buildEntries_cons_allowed (st : List String) (f : FileInfo)
    (rest : List FileInfo) (h : allowed_file f.name = true) :
    buildEntries .clean st (f :: rest) =
      (buildEntries .clean st rest).map (fun tail => mkEntry st f :: tail) := by
  cases hrest : buildEntries .clean st rest <;>
    simp [buildEntries, h, pyGetmtime, pyGetsize, hrest, mkEntry, Except.map]

theorem buildEntries_cons_not_allowed (fault : ScanFault) (st : List String)
    (f : FileInfo) (rest : List FileInfo) (h : allowed_file f.name = false) :
    buildEntries fault st (f :: rest) = buildEntries fault st rest := by
  simp [buildEntries, h]

/-- With no fault injected, the entry-building loop never raises. -/
theorem buildEntries_clean_ok (st : List String) (l : List FileInfo) :
    ∃ es, buildEntries .clean st l = .ok es := by
  induction l with
  | nil => exact ⟨[], rfl⟩
  | cons f rest ih =>
    obtain ⟨es, hes⟩ := ih
    by_cases h : allowed_file f.name
    · exact ⟨mkEntry st f :: es, by rw [buildEntries_cons_allowed st f rest h, hes]; rfl⟩
    · exact ⟨es, by rw [buildEntries_cons_not_allowed .clean st f rest (by simp [h]), hes]⟩

/-- Every entry the clean scan builds: it passed `allowed_file`, it comes from
a listed file whose mtime and size it carries, and its `stl_file` field is the
public reference exactly when the same-stem derived file exists. -/
theorem mem_buildEntries_clean (st : List String) (l : List FileInfo)
    (es : List CatalogEntry) (e : CatalogEntry)
    (hok : buildEntries .clean st l = .ok es) (he : e ∈ es) :
    allowed_file e.filename = true ∧
    (∃ f ∈ l, f.name = e.filename ∧ f.mtime = e.date ∧ f.size = e.size) ∧
    (((pyStem e.filename ++ ".stl") ∈ st ∧
        e.stl_file = some ("/static/" ++ (pyStem e.filename ++ ".stl"))) ∨
     ((pyStem e.filename ++ ".stl") ∉ st ∧ e.stl_file = none)) := by
  induction l generalizing es with
  | nil =>
    simp only [buildEntries, Except.ok.injEq] at hok
    subst hok
    simp at he
  | cons f rest ih =>
    obtain ⟨es', hes'⟩ := buildEntries_clean_ok st rest
    by_cases h : allowed_file f.name
    · rw [buildEntries_cons_allowed st f rest h, hes'] at hok
      simp only [Except.map, Except.ok.injEq] at hok
      subst hok
      rcases List.mem_cons.mp he with he1 | he2
      · subst he1
        refine ⟨h, ⟨f, List.mem_cons_self f rest, rfl, rfl, rfl⟩, ?_⟩
        by_cases hm : (pyStem f.name ++ ".stl") ∈ st
        · exact Or.inl ⟨hm, by simp [mkEntry, hm]⟩
        · exact Or.inr ⟨hm, by simp [mkEntry, hm]⟩
      · obtain ⟨h1, ⟨g, hg, hgp⟩, h3⟩ := ih es' hes' he2
        exact ⟨h1, ⟨g, List.mem_cons_of_mem f hg, hgp⟩, h3⟩
    · rw [buildEntries_cons_not_allowed .clean st f rest (by simp [h])] at hok
      obtain ⟨h1, ⟨g, hg, hgp⟩, h3⟩ := ih es hok he
      exact ⟨h1, ⟨g, List.mem_cons_of_mem f hg, hgp⟩, h3⟩

/-- Every allowed listed file produces an entry in the clean scan. -/
theorem buildEntries_clean_complete (st : List String) (l : List FileInfo)
    (es : List CatalogEntry) (f : FileInfo)
    (hok : buildEntries .clean st l = .ok es) (hf : f ∈ l)
    (ha : allowed_file f.name = true) :
    ∃ e ∈ es, e.filename = f.name ∧ e.date = f.mtime ∧ e.size = f.size := by
  induction l generalizing es with
  | nil => simp at hf
  | cons g rest ih =>
    obtain ⟨es', hes'⟩ := buildEntries_clean_ok st rest
    rcases List.mem_cons.mp hf with hfg | hfr
    · subst hfg
      rw [buildEntries_cons_allowed st f rest ha, hes'] at hok
      simp only [Except.map, Except.ok.injEq] at hok
      subst hok
      exact ⟨mkEntry st f, List.mem_cons_self _ _, rfl, rfl, rfl⟩
    · by_cases h : allowed_file g.name
      · rw [buildEntries_cons_allowed st g rest h, hes'] at hok
        simp only [Except.map, Except.ok.injEq] at hok
        subst hok
        obtain ⟨e, hee, hep⟩ := ih es' hes' hfr
        exact ⟨e, List.mem_cons_of_mem _ hee, hep⟩
      · rw [buildEntries_cons_not_allowed .clean st g rest (by simp [h])] at hok
        exact ih es hok hfr

/-- The clean-scan response, given the built entry list. -/
theorem get_recent_uploads_clean (fs : FS) (h : fs.uploadsExists = true)
    (es : List CatalogEntry)
    (hok : buildEntries .clean fs.staticFiles fs.uploads = .ok es) :
    get_recent_uploads fs .clean = ⟨none, (es.insertionSort dateGe).take 4, 200⟩ := by
  simp [get_recent_uploads, scanRecent, pyListdir, h, hok]

/-- Any error raised inside the scan is caught at the boundary and becomes
the structured empty-list error response. -/
theorem get_recent_uploads_error (fs : FS) (fault : ScanFault) (msg : String)
    (h : fs.uploadsExists = true) (hsc : scanRecent fs fault = .error msg) :
    get_recent_uploads fs fault = ⟨some msg, [], 500⟩ := by
  simp [get_recent_uploads, h, hsc]

/-- `file.save` leaves a file with the given name, mtime and size present. -/
theorem saveFile_mem (l : List FileInfo) (n : String) (mt : Int) (sz : Nat) :
    (⟨n, mt, sz⟩ : FileInfo) ∈ saveFile l n mt sz := by
  unfold saveFile
  by_cases h : l.any (fun f => f.name = n)
  · rw [if_pos h]
    obtain ⟨f, hf, hfn⟩ := List.any_eq_true.mp h
    refine List.mem_map.mpr ⟨f, hf, ?_⟩
    simp only [decide_eq_true_eq] at hfn
    simp [hfn]
  · rw [if_neg h]
    simp

end StpViewer

namespace StpViewer

/-- C7: with the kernel available, `convert_stp_to_stl` fails with a read
error exactly when the read status is non-success, with an empty-shape error
exactly when the transferred shape is null, with a write error exactly when
the kernel reports write failure, and in every other case reports success
with the derived file present at the output path; it never reports the
kernel-unavailable failure. -/
theorem convert_error_characterization (k : KernelModel) (stlName : String)
    (st : List String) :
    (∀ s, (convert_stp_to_stl true k stlName st).1 = .error (.readFailure s) ↔
        k.readStatus = s ∧ s ≠ IFSelect_RetDone) ∧
    ((convert_stp_to_stl true k stlName st).1 = .error .emptyShape ↔
        k.readStatus = IFSelect_RetDone ∧ k.shapeIsNull = true) ∧
    ((convert_stp_to_stl true k stlName st).1 = .error .writeFailure ↔
        k.readStatus = IFSelect_RetDone ∧ k.shapeIsNull = false ∧
          k.writeSuccess = false) ∧
    ((convert_stp_to_stl true k stlName st).1 = .ok true ↔
        k.readStatus = IFSelect_RetDone ∧ k.shapeIsNull = false ∧
          k.writeSuccess = true) ∧
    ((convert_stp_to_stl true k stlName st).1 = .ok true →
        stlName ∈ (convert_stp_to_stl true k stlName st).2) ∧
    (convert_stp_to_stl true k stlName st).1 ≠ .error .kernelUnavailable := by
  obtain ⟨rs, sn, ws⟩ := k
  by_cases h1 : rs = IFSelect_RetDone
  · subst h1
    cases sn <;> cases ws <;> simp [convert_stp_to_stl]
  · cases sn <;> cases ws <;> simp [convert_stp_to_stl, h1]

/-- Witness for C7 at a concrete kernel observation. -/
theorem convert_error_characterization_witness :
    (convert_stp_to_stl true ⟨1, false, true⟩ "cube.stl" []).1 = .ok true ∧
    "cube.stl" ∈ (convert_stp_to_stl true ⟨1, false, true⟩ "cube.stl" []).2 := by
  have h := convert_error_characterization ⟨1, false, true⟩ "cube.stl" []
  have hok := (h.2.2.2.1).mpr (by decide)
  exact ⟨hok, h.2.2.2.2.1 hok⟩

/-- C6: evaluation of the fetch handlers at a missing file: the request does
not produce a 404 result; the `FileNotFoundError` raised by `send_file`
escapes to the framework boundary as a 500. -/
theorem fetch_missing_file_is_500_not_404 :
    uploaded_file ⟨true, [⟨"cube.step", 10, 100⟩], []⟩ "ghost.step" =
      .exceptionStatus 500 ∧
    static_file ⟨true, [⟨"cube.step", 10, 100⟩], []⟩ "ghost.stl" =
      .exceptionStatus 500 ∧
    uploaded_file ⟨true, [⟨"cube.step", 10, 100⟩], []⟩ "ghost.step" ≠
      .exceptionStatus 404 ∧
    static_file ⟨true, [⟨"cube.step", 10, 100⟩], []⟩ "ghost.stl" ≠
      .exceptionStatus 404 := by decide

/-- C10: the filename `".stp"` passes upload validation, sanitizes to the
extensionless stored name `"stp"`, is stored and reported successful, yet
`allowed_file` rejects the stored name, so the recent-uploads catalog never
lists it (even while a sibling valid upload is listed). -/
theorem sanitized_name_escapes_catalog :
    allowed_file ".stp" = true ∧
    secure_filename ".stp" = "stp" ∧
    (upload_file false ⟨1, false, true⟩ ⟨true, ".stp"⟩ ⟨true, [], []⟩ 5 9).1.success
      = true ∧
    (⟨"stp", 5, 9⟩ : FileInfo) ∈
      (upload_file false ⟨1, false, true⟩ ⟨true, ".stp"⟩ ⟨true, [], []⟩ 5 9).2.uploads ∧
    allowed_file "stp" = false ∧
    (get_recent_uploads
      (upload_file false ⟨1, false, true⟩ ⟨true, ".stp"⟩ ⟨true, [], []⟩ 5 9).2
      .clean).files = [] ∧
    (get_recent_uploads ⟨true, [⟨"stp", 5, 9⟩, ⟨"cube.step", 6, 7⟩], []⟩
      .clean).files = [⟨"cube.step", none, 6, 7⟩] := by decide

/-- C2, counterexample: the empty filename has no dot, hence no extension in
the allow-set, yet the handler rejects it with the no-file-selected error,
not the invalid-file-type error the claim requires. -/
theorem empty_filename_not_invalid_type_error :
    specExt "" = none ∧
    (upload_file true ⟨1, false, true⟩ ⟨true, ""⟩ ⟨true, [], []⟩ 0 0).1 =
      { error := some "No file selected", status := 400 } ∧
    ("No file selected" : String) ≠
      "Invalid file type. Please upload .stp or .step files" := by decide

/-- C2 (amended): for every request carrying a file part with a nonempty
filename whose extension (after the last dot, case-insensitively) is not in
the allow-set — including filenames with no dot — the handler rejects with
the invalid-file-type error and HTTP 400, and the filesystem is unchanged
(nothing is stored). -/
theorem invalid_extension_rejected (hasOCC : Bool) (k : KernelModel)
    (req : UploadRequest) (fs : FS) (mt : Int) (sz : Nat)
    (h1 : req.hasFilePart = true) (h2 : req.filename ≠ "")
    (h3 : specHasAllowedExt req.filename = false) :
    upload_file hasOCC k req fs mt sz =
      ({ error := some "Invalid file type. Please upload .stp or .step files",
         status := 400 }, fs) := by
  have ha : allowed_file req.filename = false := by
    rw [allowed_file_eq_spec]; exact h3
  simp [upload_file, h1, h2, ha]

/-- Witness for the amended C2 at `notes.txt`. -/
theorem invalid_extension_rejected_witness :
    (⟨true, "notes.txt"⟩ : UploadRequest).hasFilePart = true ∧
    (⟨true, "notes.txt"⟩ : UploadRequest).filename ≠ "" ∧
    specHasAllowedExt "notes.txt" = false ∧
    upload_file true ⟨1, false, true⟩ ⟨true, "notes.txt"⟩ ⟨true, [], []⟩ 0 0 =
      ({ error := some "Invalid file type. Please upload .stp or .step files",
         status := 400 }, ⟨true, [], []⟩) :=
  ⟨by decide, by decide, by decide,
    invalid_extension_rejected true ⟨1, false, true⟩ ⟨true, "notes.txt"⟩
      ⟨true, [], []⟩ 0 0 (by decide) (by decide) (by decide)⟩

end StpViewer

namespace StpViewer

/-- The clean (fault-free) catalog read always returns a non-error 200
response. -/
theorem get_recent_uploads_clean_no_error (fs : FS) :
    (get_recent_uploads fs .clean).error = none ∧
    (get_recent_uploads fs .clean).status = 200 := by
  by_cases h : fs.uploadsExists = true
  · obtain ⟨es, hok⟩ := buildEntries_clean_ok fs.staticFiles fs.uploads
    rw [get_recent_uploads_clean fs h es hok]
    exact ⟨rfl, rfl⟩
  · have h' : fs.uploadsExists = false := by simpa using h
    simp [get_recent_uploads, h']

/-- Every entry of a clean catalog response: it passed `allowed_file`, it
mirrors a listed upload, and its `stl_file` reference is attached exactly
when the same-stem derived file exists in the static directory. -/
theorem mem_files_clean (fs : FS) (e : CatalogEntry)
    (he : e ∈ (get_recent_uploads fs .clean).files) :
    allowed_file e.filename = true ∧
    (∃ f ∈ fs.uploads, f.name = e.filename ∧ f.mtime = e.date ∧ f.size = e.size) ∧
    (((pyStem e.filename ++ ".stl") ∈ fs.staticFiles ∧
        e.stl_file = some ("/static/" ++ (pyStem e.filename ++ ".stl"))) ∨
     ((pyStem e.filename ++ ".stl") ∉ fs.staticFiles ∧ e.stl_file = none)) := by
  by_cases h : fs.uploadsExists = true
  · obtain ⟨es, hok⟩ := buildEntries_clean_ok fs.staticFiles fs.uploads
    rw [get_recent_uploads_clean fs h es hok] at he
    have h1 : e ∈ es.insertionSort dateGe := (List.take_sublist 4 _).subset he
    have h2 : e ∈ es := (List.perm_insertionSort dateGe es).subset h1
    exact mem_buildEntries_clean _ _ es e hok h2
  · have h' : fs.uploadsExists = false := by simpa using h
    simp [get_recent_uploads, h'] at he

/-- C1: for every submission that passes intake validation and converts, the
derived mesh filename is the sanitized source filename's stem concatenated
with `.stl` (independent of the source extension's case), both in the
response reference and in the results directory. -/
theorem derived_name_is_sanitized_stem (k : KernelModel) (req : UploadRequest)
    (fs : FS) (mt : Int) (sz : Nat)
    (h1 : req.hasFilePart = true) (h2 : req.filename ≠ "")
    (h3 : allowed_file req.filename = true)
    (kr : k.readStatus = IFSelect_RetDone) (ks : k.shapeIsNull = false)
    (kw : k.writeSuccess = true) :
    (upload_file true k req fs mt sz).1.stl_file =
      some ("/static/" ++ (specStem (secure_filename req.filename) ++ ".stl")) ∧
    (specStem (secure_filename req.filename) ++ ".stl") ∈
      (upload_file true k req fs mt sz).2.staticFiles ∧
    (upload_file true k req fs mt sz).1.success = true := by
  rw [← pyStem_eq_specStem]
  simp [upload_file, h1, h2, h3, convert_stp_to_stl, kr, ks, kw]

/-- Witness for C1 at the spec's own example: `Part.STP` yields
`/static/Part.stl`. -/
theorem derived_name_is_sanitized_stem_witness :
    allowed_file "Part.STP" = true ∧
    (upload_file true ⟨1, false, true⟩ ⟨true, "Part.STP"⟩ ⟨true, [], []⟩ 3 4).1.stl_file
      = some "/static/Part.stl" := by
  have h := derived_name_is_sanitized_stem ⟨1, false, true⟩ ⟨true, "Part.STP"⟩
    ⟨true, [], []⟩ 3 4 (by decide) (by decide) (by decide) rfl rfl rfl
  exact ⟨by decide, h.1.trans (by decide)⟩

/-- C4: with the kernel unavailable, a valid upload still succeeds: the raw
file is stored, the response is a success payload referencing the raw upload
path with the needs-conversion flag, and the catalog read still functions. -/
theorem kernel_unavailable_degraded_upload (k : KernelModel)
    (req : UploadRequest) (fs : FS) (mt : Int) (sz : Nat)
    (h1 : req.hasFilePart = true) (h2 : req.filename ≠ "")
    (h3 : allowed_file req.filename = true) :
    (upload_file false k req fs mt sz).1 =
      { success := true,
        stp_file := some ("/uploads/" ++ secure_filename req.filename),
        message := some ("File uploaded. Note: pythonocc-core not installed. " ++
          "Install it for STP conversion."),
        needs_conversion := some true, status := 200 } ∧
    (⟨secure_filename req.filename, mt, sz⟩ : FileInfo) ∈
      (upload_file false k req fs mt sz).2.uploads ∧
    (get_recent_uploads (upload_file false k req fs mt sz).2 .clean).error = none ∧
    (get_recent_uploads (upload_file false k req fs mt sz).2 .clean).status = 200 := by
  refine ⟨?_, ?_, ?_, ?_⟩
  · simp [upload_file, h1, h2, h3]
  · simp only [upload_file, h1, h2, h3]
    simp [saveFile_mem]
  · exact (get_recent_uploads_clean_no_error _).1
  · exact (get_recent_uploads_clean_no_error _).2

/-- Witness for C4 at the spec's scenario: `cube.step` with the kernel
unavailable. -/
theorem kernel_unavailable_degraded_upload_witness :
    allowed_file "cube.step" = true ∧
    (upload_file false ⟨1, false, true⟩ ⟨true, "cube.step"⟩ ⟨true, [], []⟩ 7 42).1.stp_file
      = some "/uploads/cube.step" ∧
    (upload_file false ⟨1, false, true⟩ ⟨true, "cube.step"⟩ ⟨true, [], []⟩ 7 42).1.needs_conversion
      = some true ∧
    (upload_file false ⟨1, false, true⟩ ⟨true, "cube.step"⟩ ⟨true, [], []⟩ 7 42).1.success
      = true := by
  have h := kernel_unavailable_degraded_upload ⟨1, false, true⟩ ⟨true, "cube.step"⟩
    ⟨true, [], []⟩ 7 42 (by decide) (by decide) (by decide)
  refine ⟨by decide, ?_, ?_, ?_⟩
  · rw [h.1]; decide
  · rw [h.1]
  · rw [h.1]

/-- C5: when the conversion fails at any step (read, empty shape, or write),
the caller reports no derived asset (error response with no `stl_file`), the
derived name is not added to the results area, and a subsequent clean catalog
read attaches no mesh reference to the uploaded file's entry. -/
theorem failed_conversion_reports_no_asset (k : KernelModel)
    (req : UploadRequest) (fs : FS) (mt : Int) (sz : Nat)
    (h1 : req.hasFilePart = true) (h2 : req.filename ≠ "")
    (h3 : allowed_file req.filename = true)
    (hfail : k.readStatus ≠ IFSelect_RetDone ∨ k.shapeIsNull = true ∨
      k.writeSuccess = false)
    (hfresh : (specStem (secure_filename req.filename) ++ ".stl") ∉ fs.staticFiles) :
    (upload_file true k req fs mt sz).1.success = false ∧
    (upload_file true k req fs mt sz).1.stl_file = none ∧
    (upload_file true k req fs mt sz).1.status = 500 ∧
    (specStem (secure_filename req.filename) ++ ".stl") ∉
      (upload_file true k req fs mt sz).2.staticFiles ∧
    ∀ e ∈ (get_recent_uploads (upload_file true k req fs mt sz).2 .clean).files,
      e.filename = secure_filename req.filename → e.stl_file = none := by
  rw [← pyStem_eq_specStem] at hfresh ⊢
  have hconv : (convert_stp_to_stl true k (pyStem (secure_filename req.filename) ++ ".stl")
      (saveFile fs.uploads (secure_filename req.filename) mt sz |> fun _ => fs.staticFiles)).1
      = (convert_stp_to_stl true k (pyStem (secure_filename req.filename) ++ ".stl")
        fs.staticFiles).1 := rfl
  have hmain : (upload_file true k req fs mt sz).1.success = false ∧
      (upload_file true k req fs mt sz).1.stl_file = none ∧
      (upload_file true k req fs mt sz).1.status = 500 ∧
      (upload_file true k req fs mt sz).2.staticFiles = fs.staticFiles := by
    by_cases hr : k.readStatus = IFSelect_RetDone
    · by_cases hs : k.shapeIsNull = true
      · simp [upload_file, h1, h2, h3, convert_stp_to_stl, hr, hs]
      · have hs' : k.shapeIsNull = false := by simpa using hs
        have hw : k.writeSuccess = false := by
          rcases hfail with hf | hf | hf
          · exact absurd hr hf
          · exact absurd hf hs
          · exact hf
        simp [upload_file, h1, h2, h3, convert_stp_to_stl, hr, hs', hw]
    · simp [upload_file, h1, h2, h3, convert_stp_to_stl, hr]
  obtain ⟨hsu, hst, hco, hsf⟩ := hmain
  refine ⟨hsu, hst, hco, by rw [hsf]; exact hfresh, ?_⟩
  intro e he hname
  obtain ⟨_, _, hdi⟩ := mem_files_clean _ e he
  rcases hdi with ⟨hmem, _⟩ | ⟨_, hnone⟩
  · rw [hname, hsf] at hmem
    exact absurd hmem hfresh
  · exact hnone

/-- Witness for C5 at a concrete empty-shape failure on `cube.step`. -/
theorem failed_conversion_reports_no_asset_witness :
    allowed_file "cube.step" = true ∧
    (upload_file true ⟨1, true, true⟩ ⟨true, "cube.step"⟩ ⟨true, [], []⟩ 7 42).1.stl_file
      = none ∧
    (upload_file true ⟨1, true, true⟩ ⟨true, "cube.step"⟩ ⟨true, [], []⟩ 7 42).1.status
      = 500 := by
  have h := failed_conversion_reports_no_asset ⟨1, true, true⟩ ⟨true, "cube.step"⟩
    ⟨true, [], []⟩ 7 42 (by decide) (by decide) (by decide) (Or.inr (Or.inl rfl))
    (by decide)
  exact ⟨by decide, h.2.1, h.2.2.1⟩

end StpViewer

namespace StpViewer

/-- C9: a catalog entry carries the non-null mesh reference exactly when its
same-stem derived file exists in the results area at scan time; otherwise the
reference is null. -/
theorem stl_reference_iff_derived_exists (fs : FS) (e : CatalogEntry)
    (he : e ∈ (get_recent_uploads fs .clean).files) :
    ((specStem e.filename ++ ".stl") ∈ fs.staticFiles →
      e.stl_file = some ("/static/" ++ (specStem e.filename ++ ".stl"))) ∧
    ((specStem e.filename ++ ".stl") ∉ fs.staticFiles → e.stl_file = none) := by
  obtain ⟨_, _, hdi⟩ := mem_files_clean fs e he
  rw [← pyStem_eq_specStem]
  rcases hdi with ⟨hm, hs⟩ | ⟨hm, hs⟩
  · exact ⟨fun _ => hs, fun hn => absurd hm hn⟩
  · exact ⟨fun hn => absurd hn hm, fun _ => hs⟩

/-- Witness for C9: a converted upload carries its mesh reference. -/
theorem stl_reference_iff_derived_exists_witness :
    (⟨"cube.step", some "/static/cube.stl", 10, 100⟩ : CatalogEntry) ∈
      (get_recent_uploads ⟨true, [⟨"cube.step", 10, 100⟩], ["cube.stl"]⟩
        .clean).files ∧
    (⟨"cube.step", some "/static/cube.stl", 10, 100⟩ : CatalogEntry).stl_file =
      some "/static/cube.stl" := by
  refine ⟨by decide, ?_⟩
  have h := stl_reference_iff_derived_exists
    ⟨true, [⟨"cube.step", 10, 100⟩], ["cube.stl"]⟩
    ⟨"cube.step", some "/static/cube.stl", 10, 100⟩ (by decide)
  exact (h.1 (by decide)).trans (by decide)

/-- C8: any filesystem access error raised during the catalog scan is caught
at the boundary: the response is the structured error with an empty files
list (and status 500), never a propagated exception. -/
theorem scan_error_returns_empty_list (fs : FS) (fault : ScanFault)
    (msg : String) (hex : fs.uploadsExists = true)
    (herr : scanRecent fs fault = .error msg) :
    get_recent_uploads fs fault = ⟨some msg, [], 500⟩ := by
  simp [get_recent_uploads, hex, herr]

/-- Witness for C8 at a failing `os.listdir`. -/
theorem scan_error_returns_empty_list_witness :
    scanRecent ⟨true, [⟨"a.stp", 1, 2⟩], []⟩ (.listdirFault "disk error") =
      .error "disk error" ∧
    get_recent_uploads ⟨true, [⟨"a.stp", 1, 2⟩], []⟩ (.listdirFault "disk error") =
      ⟨some "disk error", [], 500⟩ :=
  ⟨rfl, scan_error_returns_empty_list _ _ _ rfl rfl⟩

/-- C3: the clean catalog listing has at most 4 entries, lists only files
with allow-set extensions (each mirroring an actual upload's name, mtime and
size), is sorted by modification time descending, and truncates only after
sorting: any allowed upload missing from the listing is no newer than any
listed entry. -/
theorem recent_uploads_bounded_sorted (fs : FS) :
    (get_recent_uploads fs .clean).files.length ≤ 4 ∧
    (get_recent_uploads fs .clean).files.Pairwise (fun a b => b.date ≤ a.date) ∧
    (∀ e ∈ (get_recent_uploads fs .clean).files,
      specHasAllowedExt e.filename = true ∧
      ∃ f ∈ fs.uploads, f.name = e.filename ∧ f.mtime = e.date ∧ f.size = e.size) ∧
    (∀ x ∈ (get_recent_uploads fs .clean).files, ∀ f ∈ fs.uploads,
      allowed_file f.name = true →
      (∃ e ∈ (get_recent_uploads fs .clean).files,
        e.filename = f.name ∧ e.date = f.mtime ∧ e.size = f.size) ∨
      f.mtime ≤ x.date) := by
  by_cases h : fs.uploadsExists = true
  case neg =>
    have h' : fs.uploadsExists = false := by simpa using h
    simp [get_recent_uploads, h']
  case pos =>
  obtain ⟨es, hok⟩ := buildEntries_clean_ok fs.staticFiles fs.uploads
  have hfiles : (get_recent_uploads fs .clean).files =
      (es.insertionSort dateGe).take 4 := by
    rw [get_recent_uploads_clean fs h es hok]
  have hsorted : (es.insertionSort dateGe).Pairwise dateGe :=
    List.sorted_insertionSort dateGe es
  refine ⟨?_, ?_, ?_, ?_⟩
  · rw [hfiles, List.length_take]
    exact min_le_left _ _
  · rw [hfiles]
    exact List.Pairwise.sublist (List.take_sublist 4 _) hsorted
  · intro e he
    obtain ⟨ha, hsrc, _⟩ := mem_files_clean fs e he
    exact ⟨by rw [← allowed_file_eq_spec]; exact ha, hsrc⟩
  · intro x hx f hf haf
    obtain ⟨e, hees, hep⟩ :=
      buildEntries_clean_complete fs.staticFiles fs.uploads es f hok hf haf
    have hesort : e ∈ es.insertionSort dateGe :=
      (List.perm_insertionSort dateGe es).symm.subset hees
    have hsplit : es.insertionSort dateGe =
        (es.insertionSort dateGe).take 4 ++ (es.insertionSort dateGe).drop 4 :=
      (List.take_append_drop 4 _).symm
    rw [hsplit] at hesort
    rcases List.mem_append.mp hesort with het | hed
    · exact Or.inl ⟨e, by rw [hfiles]; exact het, hep⟩
    · right
      rw [hsplit] at hsorted
      have hrel : dateGe x e := (List.pairwise_append.mp hsorted).2.2 x
        (by rw [hfiles] at hx; exact hx) e hed
      have hle : e.date ≤ x.date := hrel
      rw [← hep.2.1]
      exact hle

/-- Witness for C3 on a six-file directory (two of them filtered out, the
newest four kept). -/
theorem recent_uploads_bounded_sorted_witness :
    (get_recent_uploads ⟨true, [⟨"cube.step", 10, 100⟩, ⟨"a.stp", 20, 50⟩,
      ⟨"b.stp", 5, 60⟩, ⟨"readme.md", 99, 1⟩, ⟨"c.STEP", 30, 2⟩, ⟨"d.stp", 1, 3⟩],
      ["cube.stl"]⟩ .clean).files.length ≤ 4 :=
  (recent_uploads_bounded_sorted _).1

end StpViewer
